import Mathlib

set_option maxHeartbeats 1000000
set_option autoImplicit false

/-!
Verification development for the Redis-backed real-time layer of the
repository: entity metrics, trending/velocity, activity streams, alerts and
rate limiting.  Every definition below is a shallow embedding of the Python
code in `backend/app` (the relevant files are
`services/redis/metrics_service.py`, `services/redis/activity_service.py`,
`services/redis_service.py` and `db/schemas/redis_schemas.py`).  Machine
integers are modelled as `Int`/`Nat`; Redis floating scores are modelled as
rationals; fallible store calls are modelled with `Except` or an explicit
fault parameter where the Python code wraps them in try/except blocks.
-/

/-! ### Rate limiter (metrics_service.py, check_rate_limit / increment_counter
/ get_counter)

The state of a single rate-limit counter key.  `val = none` means the key is
absent; `ttl = none` means the key exists without an expiry.  The fault
parameter models which underlying store primitive raises, mirroring the
try/except structure of the Python code: `get_counter` and
`increment_counter` swallow their own store errors and return `0`, while an
error from `redis.ttl` propagates to the handler of `check_rate_limit`
itself, which fails open. -/

structure KState where
  val : Option Int
  ttl : Option Nat
deriving DecidableEq

inductive Fault
| fnone
| fget
| fttl
| fincr
| fexpire
| fall
deriving DecidableEq

/-- Returns true when the fault makes `redis.get` raise. -/
def Fault.gFails : Fault → Bool
  | .fget => true
  | .fall => true
  | _ => false

/-- Returns true when the fault makes `redis.ttl` raise. -/
def Fault.tFails : Fault → Bool
  | .fttl => true
  | .fall => true
  | _ => false

/-- Returns true when the fault makes `redis.incrby` raise. -/
def Fault.iFails : Fault → Bool
  | .fincr => true
  | .fall => true
  | _ => false

/-- Returns true when the fault makes `redis.expire` raise. -/
def Fault.eFails : Fault → Bool
  | .fexpire => true
  | .fall => true
  | _ => false

/-- Redis TTL command: -2 when the key is absent, -1 when it has no expiry,
otherwise the remaining seconds. -/
def ttlCmd (s : KState) : Int :=
  match s.val with
  | none => -2
  | some _ =>
    match s.ttl with
    | none => -1
    | some t => (t : Int)

/-- Redis INCRBY: an absent key is treated as 0; the expiry is untouched. -/
def incrbyCmd (s : KState) (k : Int) : Int × KState :=
  let v := s.val.getD 0 + k
  (v, ⟨some v, s.ttl⟩)

/-- Redis EXPIRE: no effect on an absent key; a expiry of 0 seconds deletes
the key; otherwise the remaining time is replaced. -/
def expireCmd (s : KState) (t : Nat) : KState :=
  match s.val with
  | none => s
  | some v => if t = 0 then ⟨none, none⟩ else ⟨some v, some t⟩

/-- Embedding of `MetricsService.get_counter`: reads the counter, returning 0
when the key is absent; its own try/except converts a store error into 0.
The Bool records whether a store error was raised during the call. -/
def getCounter (f : Fault) (s : KState) : Int × Bool :=
  if f.gFails then (0, true) else (s.val.getD 0, false)

/-- Embedding of `MetricsService.increment_counter`: INCRBY followed by
EXPIRE whenever a ttl is supplied; its own try/except converts a store error
into a returned value of 0 (mutations already performed persist).  Returns
the reported value, the new store state, and whether an error was raised. -/
def incrementCounter (f : Fault) (s : KState) (inc : Int) (t : Option Nat) :
    Int × KState × Bool :=
  if f.iFails then (0, s, true)
  else
    let (v, s1) := incrbyCmd s inc
    match t with
    | some tt => if f.eFails then (0, s1, true) else (v, expireCmd s1 tt, false)
    | none => (v, s1, false)

structure RLResult where
  allowed : Bool
  count : Int
  reset : Int
  state : KState
  raised : Bool
deriving DecidableEq

/-- Embedding of `MetricsService.check_rate_limit`.  The Python code reads
the counter, reads the TTL, treats a negative TTL as an expired window
(count 0, next window of `window` seconds), denies without incrementing when
`count >= limit`, and otherwise increments through `increment_counter` with
the window as ttl.  Only the `redis.ttl` call can raise into the outer
try/except, which fails open with `(True, 0, window)`. -/
def checkRateLimit (f : Fault) (s : KState) (limit : Int) (window : Nat) :
    RLResult :=
  let cr := getCounter f s
  if f.tFails then ⟨true, 0, (window : Int), s, true⟩
  else
    let t0 := ttlCmd s
    let count := if t0 < 0 then 0 else cr.1
    let t := if t0 < 0 then (window : Int) else t0
    if limit ≤ count then ⟨false, count, t, s, cr.2⟩
    else
      let ir := incrementCounter f s 1 (some window)
      ⟨true, ir.1, t, ir.2.1, cr.2 || ir.2.2⟩

/-- Effective count used by the limit test: after the TTL adjustment an
expired or absent key is treated as holding 0. -/
def effCount (s : KState) : Int :=
  if ttlCmd s < 0 then 0 else s.val.getD 0

/-! ### Activity streams (activity_service.py `_add_to_list`, and the
equivalent `list_push` in redis_service.py)

A stream is a Redis list of serialized activity records, newest first.  The
Python code does LPUSH, reads the length, and when the length exceeds
`MAX_STREAM_LENGTH * TRIM_THRESHOLD` (1000 * 1.2 = 1200.0) trims with
LTRIM 0 (MAX_STREAM_LENGTH - 1).  An integer length exceeds the float
1200.0 exactly when it exceeds the integer 1200, which is how the trigger
is written below; the first clause of the stream-bound theorem records
that the rational comparison of the source agrees. -/

def MAX_STREAM_LENGTH : Nat := 1000

def TRIM_THRESHOLD : ℚ := 12 / 10

/-- Embedding of `ActivityService._add_to_list` restricted to the list
state: LPUSH the serialized record, then trim to the first
`MAX_STREAM_LENGTH` elements when the new length exceeds 1200. -/
def addToList (x : String) (s : List String) : List String :=
  if MAX_STREAM_LENGTH * 12 / 10 < (x :: s).length then
    (x :: s).take MAX_STREAM_LENGTH
  else x :: s

/-- Length evolution of one push, on the length alone. -/
def lenStep (n : Nat) : Nat :=
  if MAX_STREAM_LENGTH * 12 / 10 < n + 1 then MAX_STREAM_LENGTH else n + 1

/-! ### Trending engine (metrics_service.py update_trending_item /
get_trending_items / get_trending_item_rank)

The store is an association list from formatted key to a sorted-set entry
(member/score pairs in insertion order, plus the ttl last applied).  The
unknown item-type branch raises a ValueError inside the try block of each
method, and the blanket `except Exception` of the same method catches it and
returns the fail-soft default. -/

inductive TimeFrames
| hour
| sixHours
| day
| week
| month
deriving DecidableEq

def TimeFrames.value : TimeFrames → String
  | .hour => "1h"
  | .sixHours => "6h"
  | .day => "1d"
  | .week => "1w"
  | .month => "1m"

/-- TTL values of `TTLValues.for_timeframe` (redis_schemas.py). -/
def ttlForTimeframe : TimeFrames → Nat
  | .hour => 3600
  | .sixHours => 21600
  | .day => 86400
  | .week => 604800
  | .month => 2592000

inductive PyErr
| valueError (msg : String)
deriving DecidableEq

structure ZEntry where
  members : List (String × ℚ)
  ttl : Option Nat
deriving DecidableEq

abbrev TrendStore := List (String × ZEntry)

def storeGet (st : TrendStore) (k : String) : ZEntry :=
  match st with
  | [] => ⟨[], none⟩
  | (k1, v) :: rest => if k1 = k then v else storeGet rest k

def storeSet (st : TrendStore) (k : String) (v : ZEntry) : TrendStore :=
  match st with
  | [] => [(k, v)]
  | (k1, v1) :: rest =>
    if k1 = k then (k, v) :: rest else (k1, v1) :: storeSet rest k v

/-- Redis ZINCRBY on a sorted set kept in insertion order: add to the score
of an existing member, otherwise append the member with the given score. -/
def zincrbyCmd (l : List (String × ℚ)) (inc : ℚ) (m : String) :
    List (String × ℚ) :=
  match l with
  | [] => [(m, inc)]
  | (m1, sc) :: rest =>
    if m1 = m then (m1, sc + inc) :: rest else (m1, sc) :: zincrbyCmd rest inc m

/-- Descending insertion used to model ZREVRANGE ordering.  Ties keep the
earlier-inserted element first; no claim below depends on tie order (the
spec leaves ties unspecified). -/
def revInsert {α : Type} (e : α × ℚ) : List (α × ℚ) → List (α × ℚ)
  | [] => [e]
  | x :: xs => if x.2 < e.2 then e :: x :: xs else x :: revInsert e xs

def zrevSorted {α : Type} (l : List (α × ℚ)) : List (α × ℚ) :=
  l.foldr revInsert []

/-- Redis ZREVRANGE with start/stop ranks; a negative stop counts from the
end of the set, so stop = -1 denotes the last element. -/
def zrevrangeCmd {α : Type} (l : List (α × ℚ)) (start : Nat) (stop : Int) :
    List (α × ℚ) :=
  let sorted := zrevSorted l
  let stopN : Int := if stop < 0 then (sorted.length : Int) + stop else stop
  if stopN < (start : Int) then []
  else (sorted.drop start).take (stopN - (start : Int) + 1).toNat

/-- Rank of a member in descending order (Redis ZREVRANK), 0-based. -/
def zrevrankCmd (l : List (String × ℚ)) (m : String) : Option Nat :=
  ((zrevSorted l).map Prod.fst).findIdx? (fun x => x = m)

/-- Key-pattern dispatch shared by the three trending methods: the final
else branch raises `ValueError(f"Unknown trending item type: {item_type}")`.
The key is the pattern with the timeframe substituted. -/
def trendingKey (itemType : String) (tf : TimeFrames) : Except PyErr String :=
  if itemType = "topics" then .ok ("psm:trending:topics:" ++ tf.value)
  else if itemType = "hashtags" then .ok ("psm:trending:hashtags:" ++ tf.value)
  else if itemType = "entities" then .ok ("psm:trending:entities:" ++ tf.value)
  else .error (.valueError ("Unknown trending item type: " ++ itemType))

/-- Body of `update_trending_item` inside its try block: resolve the key,
ZINCRBY, then EXPIRE with the timeframe ttl. -/
def updateTrendingItemBody (st : TrendStore) (itemType itemId : String)
    (score : ℚ) (tf : TimeFrames) : Except PyErr TrendStore :=
  match trendingKey itemType tf with
  | .error e => .error e
  | .ok key =>
    let z := storeGet st key
    .ok (storeSet st key ⟨zincrbyCmd z.members score itemId,
          some (ttlForTimeframe tf)⟩)

/-- Embedding of `update_trending_item`: the blanket `except Exception`
turns any error of the body, including the ValueError the body itself
raises for an unknown item type, into a returned `False`. -/
def updateTrendingItem (st : TrendStore) (itemType itemId : String)
    (score : ℚ) (tf : TimeFrames) : Bool × TrendStore :=
  match updateTrendingItemBody st itemType itemId score tf with
  | .ok st1 => (true, st1)
  | .error _ => (false, st)

/-- Embedding of `get_trending_items` (with scores): ZREVRANGE 0 (limit-1)
on the resolved key; the blanket except returns the empty list. -/
def getTrendingItems (st : TrendStore) (itemType : String) (tf : TimeFrames)
    (limit : Nat) : List (String × ℚ) :=
  match trendingKey itemType tf with
  | .error _ => []
  | .ok key => zrevrangeCmd (storeGet st key).members 0 ((limit : Int) - 1)

/-- Embedding of `get_trending_item_rank`: ZREVRANK on the resolved key; the
blanket except returns `None`, the same value an absent member yields. -/
def getTrendingItemRank (st : TrendStore) (itemType itemId : String)
    (tf : TimeFrames) : Option Nat :=
  match trendingKey itemType tf with
  | .error _ => none
  | .ok key => zrevrankCmd (storeGet st key).members itemId

/-! ### Topic velocity (redis_service.py calculate_topic_velocity)

The member is fixed; `z` maps each timeframe to the ZSCORE of the member in
the trending-topics set of that timeframe (`none` when the member is
absent).  The Python loop walks adjacent score pairs with index `i`,
skipping a pair whose two scores are both zero, and otherwise accumulates
`velocity * weight` and `weight` with `weight = 1 / (i + 1)`. -/

def tfScores (z : TimeFrames → Option ℚ) (tfs : List TimeFrames) : List ℚ :=
  tfs.map (fun tf => match z tf with | some s => s | none => 0)

/-- Normalized difference of one adjacent pair:
`(short / long) - 1` when `long > 0`, otherwise `short`. -/
def velPair (p : ℚ × ℚ) : ℚ :=
  if 0 < p.2 then p.1 / p.2 - 1 else p.1

def pairWeight (i : Nat) : ℚ := 1 / ((i : ℚ) + 1)

/-- The accumulation loop of `calculate_topic_velocity`, with the running
pair index and the (total_velocity, weight_sum) accumulator. -/
def velLoop : Nat → List (ℚ × ℚ) → ℚ × ℚ → ℚ × ℚ
  | _, [], acc => acc
  | i, p :: rest, acc =>
    if p.1 = 0 ∧ p.2 = 0 then velLoop (i + 1) rest acc
    else velLoop (i + 1) rest
      (acc.1 + velPair p * pairWeight i, acc.2 + pairWeight i)

/-- Return value of the loop accumulator:
`total_velocity / weight_sum if weight_sum > 0 else 0.0`. -/
def velQuot (acc : ℚ × ℚ) : ℚ :=
  if 0 < acc.2 then acc.1 / acc.2 else 0

/-- Embedding of `calculate_topic_velocity`: 0 for fewer than two
timeframes, otherwise the loop over adjacent score pairs followed by the
final quotient. -/
def calculateTopicVelocity (z : TimeFrames → Option ℚ)
    (tfs : List TimeFrames) : ℚ :=
  if tfs.length < 2 then 0
  else velQuot (velLoop 0 ((tfScores z tfs).zip (tfScores z tfs).tail) (0, 0))

/-- Velocity as the specification sentence words it, for comparison with the
code: the weighted average over all adjacent pairs of
`(short / long) - 1 if long > 0 else short`, pair `i` weighted `1/(i+1)`,
with no special treatment of pairs whose scores are both zero. -/
def specVelocity (z : TimeFrames → Option ℚ) (tfs : List TimeFrames) : ℚ :=
  if tfs.length < 2 then 0
  else
    velQuot
      (((List.enumFrom 0 ((tfScores z tfs).zip (tfScores z tfs).tail)).map
          (fun ip => velPair ip.2 * pairWeight ip.1)).sum,
        ((List.enumFrom 0 ((tfScores z tfs).zip (tfScores z tfs).tail)).map
          (fun ip => pairWeight ip.1)).sum)

/-- Pairs the loop does not skip: at least one of the two scores is
nonzero. -/
def keepPair (ip : Nat × (ℚ × ℚ)) : Bool :=
  !(decide (ip.2.1 = 0 ∧ ip.2.2 = 0))

/-! ### Entity metrics hash (metrics_service.py increment_entity_metrics /
get_entity_metrics)

A Redis hash stores strings; `RVal.int n` stands for a field whose string
is an integer literal (the only values HINCRBY accepts), `RVal.str s` for
any other string, such as the ISO timestamps written into `last_updated`.
HINCRBY on a non-integer string raises, which the Python code catches with
the blanket except of `increment_entity_metrics`, returning `{}` while the
increments already performed persist in the store. -/

inductive RVal
| int (n : Int)
| str (s : String)
deriving DecidableEq

abbrev RHash := List (String × RVal)

def LAST_UPDATED : String := "last_updated"

def hlookup : RHash → String → Option RVal
  | [], _ => none
  | (g, v) :: rest, f => if g = f then some v else hlookup rest f

def hsetCmd : RHash → String → RVal → RHash
  | [], f, v => [(f, v)]
  | (g, w) :: rest, f, v =>
    if g = f then (f, v) :: rest else (g, w) :: hsetCmd rest f v

def hincrbyCmd (h : RHash) (f : String) (k : Int) :
    Except Unit (Int × RHash) :=
  match hlookup h f with
  | none => .ok (k, hsetCmd h f (.int k))
  | some (.int v) => .ok (v + k, hsetCmd h f (.int (v + k)))
  | some (.str _) => .error ()

/-- Trace of the store commands a call performs, in order. -/
inductive ROp
| incrOp (f : String) (k : Int)
| setOp (f : String)
| expireOp (t : Nat)
deriving DecidableEq

/-- The HINCRBY loop of `increment_entity_metrics`: on success returns the
collected new values, the hash and the trace; on a store error returns the
hash and trace as mutated so far (the exception aborts the loop). -/
def incrLoop : List (String × Int) → RHash → List (String × Int) →
    List ROp → Except (RHash × List ROp) (List (String × Int) × RHash × List ROp)
  | [], h, res, tr => .ok (res, h, tr)
  | (f, k) :: rest, h, res, tr =>
    match hincrbyCmd h f k with
    | .error _ => .error (h, tr)
    | .ok (v, h1) => incrLoop rest h1 (res ++ [(f, v)]) (tr ++ [.incrOp f k])

structure IncrOut where
  results : List (String × Int)
  hash : RHash
  trace : List ROp
deriving DecidableEq

/-- Embedding of `increment_entity_metrics`: HINCRBY each named field in
order, then HSET `last_updated` to the current ISO timestamp (`now`), then
EXPIRE once when a ttl is given; the blanket except returns `{}` with the
partially mutated hash. -/
def incrementEntityMetrics (ms : List (String × Int)) (now : String)
    (ttl : Option Nat) (h : RHash) : IncrOut :=
  match incrLoop ms h [] [] with
  | .error e => ⟨[], e.1, e.2⟩
  | .ok (res, h1, tr) =>
    let h2 := hsetCmd h1 LAST_UPDATED (.str now)
    let tr2 := tr ++ [.setOp LAST_UPDATED]
    match ttl with
    | some t => ⟨res, h2, tr2 ++ [.expireOp t]⟩
    | none => ⟨res, h2, tr2⟩

/-- Parsed value a snapshot read reports for one field: `json.loads` maps an
integer literal back to the integer; a non-numeric string (such as an ISO
timestamp) fails both the JSON parse and the digit checks and is returned
as the string itself; an absent field is reported as `None`. -/
inductive PVal
| pInt (n : Int)
| pStr (s : String)
| pNone
deriving DecidableEq

def parseRVal : Option RVal → PVal
  | none => .pNone
  | some (.int n) => .pInt n
  | some (.str s) => .pStr s

/-- Embedding of `get_entity_metrics` restricted to a single requested
field (HMGET of one field followed by the value parsing). -/
def getEntityMetricsField (h : RHash) (f : String) : PVal :=
  parseRVal (hlookup h f)

/-- State of the hash after `n` sequential calls of
`increment_entity_metrics` that each add `k` to the field `f`, call `i`
writing the timestamp `nows i`. -/
def iterIncr (f : String) (k : Int) (nows : Nat → String) (ttl : Option Nat)
    (h0 : RHash) : Nat → RHash
  | 0 => h0
  | n + 1 =>
    (incrementEntityMetrics [(f, k)] (nows n) ttl
      (iterIncr f k nows ttl h0 n)).hash

/-! ### Alerts (redis_service.py create_entity_alert / get_entity_alerts,
priorities from redis_schemas.py)

A member of the per-entity alert sorted set is the JSON serialization of the
alert dictionary; `AlertMember.jsonObj` stands for such a member and
`AlertMember.invalid` for a member that is not valid JSON.  `priority` is
the serialized priority name, or absent when the stored dictionary carries
no priority field. -/

inductive AlertPriority
| low
| medium
| high
| critical
deriving DecidableEq

/-- Priority weights: `LOW = 1, MEDIUM = 5, HIGH = 10, CRITICAL = 20`. -/
def AlertPriority.weight : AlertPriority → Int
  | .low => 1
  | .medium => 5
  | .high => 10
  | .critical => 20

def AlertPriority.pname : AlertPriority → String
  | .low => "LOW"
  | .medium => "MEDIUM"
  | .high => "HIGH"
  | .critical => "CRITICAL"

/-- Lookup in the `AlertPriority` enumeration by name; `none` models the
KeyError that `AlertPriority[name]` raises for an unknown name. -/
def priorityOfName (s : String) : Option AlertPriority :=
  if s = "LOW" then some .low
  else if s = "MEDIUM" then some .medium
  else if s = "HIGH" then some .high
  else if s = "CRITICAL" then some .critical
  else none

structure AlertData where
  aid : String
  atype : String
  priority : Option String
  timestamp : String
  entityId : String
  message : String
deriving DecidableEq

inductive AlertMember
| jsonObj (a : AlertData)
| invalid (s : String)
deriving DecidableEq

abbrev AlertZSet := List (AlertMember × ℚ)

/-- Redis ZADD of a single member: replace the score of an existing member,
otherwise append. -/
def zaddCmd (zs : AlertZSet) (m : AlertMember) (sc : ℚ) : AlertZSet :=
  match zs with
  | [] => [(m, sc)]
  | (m1, s1) :: rest =>
    if m1 = m then (m1, sc) :: rest else (m1, s1) :: zaddCmd rest m sc

/-- Score given to an alert raised at unix time `t`:
`time.time() + priority.value * 10000`. -/
def alertScore (t : ℚ) (p : AlertPriority) : ℚ :=
  t + (p.weight : ℚ) * 10000

/-- Embedding of `create_entity_alert` restricted to the sorted-set write:
serialize the alert dictionary and ZADD it with the combined
time-plus-priority score.  The id and timestamp strings the Python code
derives from the clock are passed in. -/
def createEntityAlert (zs : AlertZSet) (t : ℚ)
    (alertId atype ts eid msg : String) (p : AlertPriority) : AlertZSet :=
  zaddCmd zs (.jsonObj ⟨alertId, atype, some p.pname, ts, eid, msg⟩)
    (alertScore t p)

/-- The collection loop of `get_entity_alerts`: for each fetched member,
parse the JSON (a JSONDecodeError is caught and the member skipped), read
the priority name with default "LOW", look it up in the enumeration (a
KeyError is caught and the member skipped), and keep the alert when its
priority value reaches the minimum. -/
def collectAlerts (minP : AlertPriority) : List AlertMember → List AlertData
  | [] => []
  | m :: rest =>
    match m with
    | .invalid _ => collectAlerts minP rest
    | .jsonObj a =>
      match priorityOfName (a.priority.getD "LOW") with
      | none => collectAlerts minP rest
      | some p =>
        if minP.weight ≤ p.weight then a :: collectAlerts minP rest
        else collectAlerts minP rest

/-- Embedding of `get_entity_alerts`: ZREVRANGE 0 (limit - 1) on the
alert set of the entity, then the parse-and-filter loop. -/
def getEntityAlerts (zs : AlertZSet) (limit : Nat) (minP : AlertPriority) :
    List AlertData :=
  collectAlerts minP ((zrevrangeCmd zs 0 ((limit : Int) - 1)).map Prod.fst)

/-- One-member outcome of the parse-and-filter loop, used to characterize
`collectAlerts`: the alert kept for the member, or `none` when the member
is skipped or filtered out. -/
def keepFn (minP : AlertPriority) (m : AlertMember) : Option AlertData :=
  match m with
  | .invalid _ => none
  | .jsonObj a =>
    match priorityOfName (a.priority.getD "LOW") with
    | none => none
    | some p => if minP.weight ≤ p.weight then some a else none

/-! ## Theorems -/

/-- Claim C1: with limit 3 and window 60 s, four rapid sequential calls of
`check_rate_limit` on a key with no prior counter state yield allowed
[true, true, true, false] with reported counts [1, 2, 3, 3], and the fourth
(denied) call leaves the store untouched; in general, whenever the
effective count (after the TTL adjustment) has reached the limit the call
denies without touching the store, and every allowed call at window 60
increments the stored counter by exactly 1. -/
theorem C1_rate_limit_boundary :
    ((checkRateLimit .fnone ⟨none, none⟩ 3 60).allowed = true ∧
      (checkRateLimit .fnone ⟨none, none⟩ 3 60).count = 1 ∧
      (checkRateLimit .fnone
        (checkRateLimit .fnone ⟨none, none⟩ 3 60).state 3 60).allowed = true ∧
      (checkRateLimit .fnone
        (checkRateLimit .fnone ⟨none, none⟩ 3 60).state 3 60).count = 2 ∧
      (checkRateLimit .fnone (checkRateLimit .fnone
        (checkRateLimit .fnone ⟨none, none⟩ 3 60).state 3 60).state
        3 60).allowed = true ∧
      (checkRateLimit .fnone (checkRateLimit .fnone
        (checkRateLimit .fnone ⟨none, none⟩ 3 60).state 3 60).state
        3 60).count = 3 ∧
      (checkRateLimit .fnone (checkRateLimit .fnone (checkRateLimit .fnone
        (checkRateLimit .fnone ⟨none, none⟩ 3 60).state 3 60).state
        3 60).state 3 60).allowed = false ∧
      (checkRateLimit .fnone (checkRateLimit .fnone (checkRateLimit .fnone
        (checkRateLimit .fnone ⟨none, none⟩ 3 60).state 3 60).state
        3 60).state 3 60).count = 3 ∧
      (checkRateLimit .fnone (checkRateLimit .fnone (checkRateLimit .fnone
        (checkRateLimit .fnone ⟨none, none⟩ 3 60).state 3 60).state
        3 60).state 3 60).state =
        (checkRateLimit .fnone (checkRateLimit .fnone
          (checkRateLimit .fnone ⟨none, none⟩ 3 60).state 3 60).state
          3 60).state) ∧
    (∀ (s : KState) (limit : Int) (window : Nat), limit ≤ effCount s →
      (checkRateLimit .fnone s limit window).allowed = false ∧
      (checkRateLimit .fnone s limit window).count = effCount s ∧
      (checkRateLimit .fnone s limit window).state = s) ∧
    (∀ (s : KState) (limit : Int),
      (checkRateLimit .fnone s limit 60).allowed = true →
      (checkRateLimit .fnone s limit 60).state.val =
        some (s.val.getD 0 + 1)) := by
  refine ⟨by decide, ?_, ?_⟩
  · intro s limit window h
    unfold checkRateLimit getCounter effCount at *
    simp only [Fault.tFails, Fault.gFails, Bool.false_eq_true, if_false,
      reduceIte] at *
    by_cases h0 : ttlCmd s < 0 <;> simp only [h0] at h ⊢ <;> simp at h <;>
      simp [h]
  · intro s limit h
    unfold checkRateLimit getCounter incrementCounter incrbyCmd expireCmd
      at *
    simp only [Fault.tFails, Fault.gFails, Fault.iFails, Fault.eFails,
      Bool.false_eq_true, if_false, reduceIte] at *
    by_cases h0 : ttlCmd s < 0 <;> simp only [h0] at h ⊢
    · by_cases hC : limit ≤ (0 : Int)
      · simp [hC] at h
      · simp [hC]
    · by_cases hC : limit ≤ s.val.getD 0
      · simp [hC] at h
      · simp [hC]

/-- Witness for C1: the denial clause at a concrete over-limit state and the
single-increment clause at a concrete fresh state. -/
theorem C1_rate_limit_boundary_witness :
    ((checkRateLimit .fnone ⟨some 5, some 10⟩ 3 60).allowed = false ∧
      (checkRateLimit .fnone ⟨some 5, some 10⟩ 3 60).count =
        effCount ⟨some 5, some 10⟩ ∧
      (checkRateLimit .fnone ⟨some 5, some 10⟩ 3 60).state =
        ⟨some 5, some 10⟩) ∧
    (checkRateLimit .fnone ⟨none, none⟩ 3 60).state.val =
      some ((none : Option Int).getD 0 + 1) :=
  ⟨C1_rate_limit_boundary.2.1 ⟨some 5, some 10⟩ 3 60 (by decide),
    C1_rate_limit_boundary.2.2 ⟨none, none⟩ 3 (by decide)⟩

/-- Claim C5 counterexample: a second allowed call within a window resets
the TTL.  With a live counter at 1 and 30 s left in the window, a call with
limit 3 and window 60 is allowed, and afterwards the TTL of the key is 60 s
rather than the 30 s the claim says is left unchanged; `increment_counter`
is invoked with `window_seconds` as its ttl argument on every allowed call,
so EXPIRE runs every time, not only on the first increment. -/
theorem C5_ttl_reset_counterexample :
    (checkRateLimit .fnone ⟨some 1, some 30⟩ 3 60).allowed = true ∧
    (checkRateLimit .fnone ⟨some 1, some 30⟩ 3 60).state.ttl = some 60 ∧
    (checkRateLimit .fnone ⟨some 1, some 30⟩ 3 60).state.ttl ≠ some 30 := by
  decide

/-- Claim C5 (amended): every allowed call of `check_rate_limit`, first or
subsequent, sets the TTL of the counter key to the full window. -/
theorem C5_ttl_reset_every_allowed_call :
    ∀ (s : KState) (limit : Int) (window : Nat), 0 < window →
      (checkRateLimit .fnone s limit window).allowed = true →
      (checkRateLimit .fnone s limit window).state.ttl = some window := by
  intro s limit window hw h
  unfold checkRateLimit getCounter incrementCounter incrbyCmd expireCmd at *
  simp only [Fault.tFails, Fault.gFails, Fault.iFails, Fault.eFails,
    Bool.false_eq_true, if_false, reduceIte] at *
  have hw0 : window ≠ 0 := Nat.pos_iff_ne_zero.mp hw
  simp only [hw0, if_false, reduceIte] at *
  by_cases h0 : ttlCmd s < 0 <;> simp only [h0] at h ⊢
  · by_cases hC : limit ≤ (0 : Int)
    · simp [hC] at h
    · simp [hC]
  · by_cases hC : limit ≤ s.val.getD 0
    · simp [hC] at h
    · simp [hC]

/-- Witness for C5 (amended): a concrete allowed call at window 60. -/
theorem C5_ttl_reset_every_allowed_call_witness :
    (checkRateLimit .fnone ⟨none, none⟩ 3 60).state.ttl = some 60 :=
  C5_ttl_reset_every_allowed_call ⟨none, none⟩ 3 60 (by decide) (by decide)

/-- Claim C7: fail-open.  When the store is unreachable (every primitive
raises), `check_rate_limit` returns allowed with count 0 and a reset of the
full window, leaving the state untouched, for every key state, limit and
window: the error in `redis.get` is swallowed by `get_counter`, and the
error in `redis.ttl` reaches the handler of `check_rate_limit`, which fails
open.  More generally, any fault that makes `redis.ttl` raise produces the
same fail-open result. -/
theorem C7_fail_open :
    (∀ (s : KState) (limit : Int) (window : Nat),
      checkRateLimit .fall s limit window =
        ⟨true, 0, (window : Int), s, true⟩) ∧
    (∀ (f : Fault) (s : KState) (limit : Int) (window : Nat),
      f.tFails = true →
      checkRateLimit f s limit window =
        ⟨true, 0, (window : Int), s, true⟩) := by
  refine ⟨fun s limit window => rfl, ?_⟩
  intro f s limit window h
  cases f <;> first
    | rfl
    | simp [Fault.tFails] at h

/-- Witness for C7: the fault that makes only `redis.ttl` raise, at an
over-limit state, still fails open. -/
theorem C7_fail_open_witness :
    checkRateLimit .fttl ⟨some 99, some 5⟩ 1 60 =
      ⟨true, 0, (60 : Int), ⟨some 99, some 5⟩, true⟩ :=
  C7_fail_open.2 .fttl ⟨some 99, some 5⟩ 1 60 (by decide)

/-- Pushing changes only the length as `lenStep` describes. -/
theorem addToList_length (x : String) (s : List String) :
    (addToList x s).length = lenStep s.length := by
  unfold addToList lenStep
  simp only [List.length_cons]
  by_cases h : MAX_STREAM_LENGTH * 12 / 10 < s.length + 1
  · rw [if_pos h, if_pos h, List.length_take, List.length_cons]
    have hM : MAX_STREAM_LENGTH = 1000 := rfl
    omega
  · rw [if_neg h, if_neg h, List.length_cons]

/-- Length of the stream after `n` pushes, starting from the empty
stream. -/
theorem addToList_iterate_length (x : String) (n : Nat) :
    ((fun s => addToList x s)^[n] []).length = lenStep^[n] 0 := by
  induction n with
  | zero => rfl
  | succ n ih =>
    rw [Function.iterate_succ_apply', Function.iterate_succ_apply',
      addToList_length, ih]

/-- Below the trigger the length just counts up. -/
theorem lenStep_iterate_id (n : Nat) (h : n ≤ 1200) : lenStep^[n] 0 = n := by
  induction n with
  | zero => rfl
  | succ n ih =>
    rw [Function.iterate_succ_apply', ih (by omega)]
    unfold lenStep
    rw [if_neg]
    simp only [MAX_STREAM_LENGTH]
    omega

/-- Claim C3: the trim trigger of the source, an integer length exceeding
the float `MAX_STREAM_LENGTH * TRIM_THRESHOLD = 1200.0`, is the integer
comparison used in `addToList`; a push whose post-push length exceeds 1200
trims the stream to exactly `MAX_STREAM_LENGTH = 1000` elements before the
operation completes, a push at or below the trigger leaves the pushed list
untrimmed; consequently pushing 1201 records sequentially into an empty
stream ends with a length of at most 1000. -/
theorem C3_stream_trim_bound :
    (∀ n : Nat, ((MAX_STREAM_LENGTH : ℚ) * TRIM_THRESHOLD < (n : ℚ) ↔
      MAX_STREAM_LENGTH * 12 / 10 < n)) ∧
    (∀ (x : String) (s : List String),
      MAX_STREAM_LENGTH * 12 / 10 < s.length + 1 →
      (addToList x s).length = MAX_STREAM_LENGTH) ∧
    (∀ (x : String) (s : List String),
      ¬ MAX_STREAM_LENGTH * 12 / 10 < s.length + 1 →
      addToList x s = x :: s) ∧
    ((fun s => addToList "r" s)^[MAX_STREAM_LENGTH * 12 / 10 + 1] []).length ≤
      MAX_STREAM_LENGTH := by
  refine ⟨?_, ?_, ?_, ?_⟩
  · intro n
    have h1 : (MAX_STREAM_LENGTH : ℚ) * TRIM_THRESHOLD = ((1200 : Nat) : ℚ) := by
      norm_num [MAX_STREAM_LENGTH, TRIM_THRESHOLD]
    have h2 : MAX_STREAM_LENGTH * 12 / 10 = 1200 := rfl
    rw [h1, h2]
    exact_mod_cast Iff.rfl
  · intro x s h
    rw [addToList_length]
    unfold lenStep
    rw [if_pos h]
  · intro x s h
    unfold addToList
    simp only [List.length_cons]
    rw [if_neg h]
  · rw [addToList_iterate_length]
    have h2 : MAX_STREAM_LENGTH * 12 / 10 + 1 = 1200 + 1 := rfl
    rw [h2, Function.iterate_succ_apply', lenStep_iterate_id 1200 le_rfl]
    decide

/-- The accumulation loop computes the two sums over the pairs it keeps. -/
theorem velLoop_eq (l : List (ℚ × ℚ)) :
    ∀ (i : Nat) (a b : ℚ),
      velLoop i l (a, b) =
        (a + (((List.enumFrom i l).filter keepPair).map
            (fun ip => velPair ip.2 * pairWeight ip.1)).sum,
          b + (((List.enumFrom i l).filter keepPair).map
            (fun ip => pairWeight ip.1)).sum) := by
  induction l with
  | nil => intro i a b; simp [velLoop, List.enumFrom]
  | cons p rest ih =>
    intro i a b
    by_cases hp : p.1 = 0 ∧ p.2 = 0
    · have hk : keepPair (i, p) = false := by simp [keepPair, hp]
      simp only [velLoop, List.enumFrom, List.filter_cons, hk, if_pos hp,
        Bool.false_eq_true, if_false]
      exact ih (i + 1) a b
    · have hk : keepPair (i, p) = true := by simp [keepPair, hp]
      simp only [velLoop, List.enumFrom, List.filter_cons, hk, if_neg hp,
        if_true, List.map_cons, List.sum_cons]
      rw [ih]
      simp only [Prod.mk.injEq]
      constructor <;> ring

theorem pairWeight_pos (i : Nat) : 0 < pairWeight i := by
  unfold pairWeight
  positivity

theorem weightSum_nonneg (l : List (Nat × (ℚ × ℚ))) :
    0 ≤ (l.map (fun ip => pairWeight ip.1)).sum := by
  induction l with
  | nil => simp
  | cons x xs ih =>
    simp only [List.map_cons, List.sum_cons]
    have := pairWeight_pos x.1
    linarith

theorem weightSum_pos (l : List (Nat × (ℚ × ℚ))) (h : l ≠ []) :
    0 < (l.map (fun ip => pairWeight ip.1)).sum := by
  cases l with
  | nil => exact absurd rfl h
  | cons x xs =>
    simp only [List.map_cons, List.sum_cons]
    have h1 := pairWeight_pos x.1
    have h2 := weightSum_nonneg xs
    linarith

/-- Claim C2 counterexample: with scores 10, 5, 0, 0 across four
timeframes, the code returns (1 * 1 + 5 * (1/2)) / (1 + 1/2) = 7/3 because
the pair (0, 0) is skipped entirely, while the weighted average the claim
describes includes the pair (0, 0) with value 0 and weight 1/3, giving
(7/2) / (11/6) = 21/11. -/
theorem C2_velocity_counterexample :
    calculateTopicVelocity
        (fun tf => match tf with
          | .hour => some 10 | .sixHours => some 5 | _ => some 0)
        [.hour, .sixHours, .day, .week] ≠
      specVelocity
        (fun tf => match tf with
          | .hour => some 10 | .sixHours => some 5 | _ => some 0)
        [.hour, .sixHours, .day, .week] := by
  have h1 : calculateTopicVelocity
      (fun tf => match tf with
        | .hour => some 10 | .sixHours => some 5 | _ => some 0)
      [.hour, .sixHours, .day, .week] = 7 / 3 := by
    norm_num [calculateTopicVelocity, tfScores, velLoop, velPair,
      pairWeight, velQuot]
  have h2 : specVelocity
      (fun tf => match tf with
        | .hour => some 10 | .sixHours => some 5 | _ => some 0)
      [.hour, .sixHours, .day, .week] = 21 / 11 := by
    norm_num [specVelocity, tfScores, velPair, pairWeight, velQuot,
      List.enumFrom]
  rw [h1, h2]
  norm_num

/-- Claim C2 (amended): `calculate_topic_velocity` is the weighted average
over the adjacent score pairs with at least one nonzero score, pair i
weighted 1/(i+1); pairs whose two scores are both zero contribute neither
value nor weight; the result is 0 when fewer than two timeframes are given
or every pair is skipped (in particular when all scores are zero); an
absent member score is treated as 0; and the single-pair example with
scores 10 and 5 gives exactly 1. -/
theorem C2_velocity_amended :
    ∀ (z : TimeFrames → Option ℚ) (tfs : List TimeFrames),
      (calculateTopicVelocity z tfs =
        if tfs.length < 2 ∨
            (List.enumFrom 0
              ((tfScores z tfs).zip (tfScores z tfs).tail)).filter keepPair
              = []
        then 0
        else
          (((List.enumFrom 0
              ((tfScores z tfs).zip (tfScores z tfs).tail)).filter
                keepPair).map
            (fun ip => velPair ip.2 * pairWeight ip.1)).sum /
          (((List.enumFrom 0
              ((tfScores z tfs).zip (tfScores z tfs).tail)).filter
                keepPair).map
            (fun ip => pairWeight ip.1)).sum) ∧
      ((∀ q ∈ tfScores z tfs, q = 0) → calculateTopicVelocity z tfs = 0) ∧
      (calculateTopicVelocity z tfs =
        calculateTopicVelocity (fun tf => some ((z tf).getD 0)) tfs) ∧
      calculateTopicVelocity
        (fun tf => match tf with
          | .hour => some 10 | .day => some 5 | _ => none)
        [.hour, .day] = 1 := by
  intro z tfs
  have key : calculateTopicVelocity z tfs =
      if tfs.length < 2 ∨
          (List.enumFrom 0
            ((tfScores z tfs).zip (tfScores z tfs).tail)).filter keepPair
            = []
      then 0
      else
        (((List.enumFrom 0
            ((tfScores z tfs).zip (tfScores z tfs).tail)).filter
              keepPair).map
          (fun ip => velPair ip.2 * pairWeight ip.1)).sum /
        (((List.enumFrom 0
            ((tfScores z tfs).zip (tfScores z tfs).tail)).filter
              keepPair).map
          (fun ip => pairWeight ip.1)).sum := by
    unfold calculateTopicVelocity
    by_cases hlen : tfs.length < 2
    · simp [hlen]
    · rw [if_neg hlen, velLoop_eq]
      simp only [zero_add]
      unfold velQuot
      by_cases hk : (List.enumFrom 0
          ((tfScores z tfs).zip (tfScores z tfs).tail)).filter keepPair = []
      · simp [hk, hlen]
      · have hW := weightSum_pos _ hk
        rw [if_pos hW, if_neg (not_or.mpr ⟨hlen, hk⟩)]
  refine ⟨key, ?_, ?_, ?_⟩
  · intro hz
    rw [key, if_pos]
    right
    rw [List.filter_eq_nil_iff]
    intro ip hip
    have hsnd : ip.2 ∈ (tfScores z tfs).zip (tfScores z tfs).tail := by
      have := List.mem_map_of_mem Prod.snd hip
      rwa [List.enumFrom_map_snd] at this
    have h1 : ip.2.1 = 0 := hz _ (List.of_mem_zip hsnd).1
    have h2 : ip.2.2 = 0 :=
      hz _ (List.mem_of_mem_tail (List.of_mem_zip hsnd).2)
    simp [keepPair, h1, h2]
  · have hsc : tfScores (fun tf => some ((z tf).getD 0)) tfs =
        tfScores z tfs := by
      unfold tfScores
      apply List.map_congr_left
      intro tf _
      cases h : z tf <;> simp [h]
    unfold calculateTopicVelocity
    rw [hsc]
  · norm_num [calculateTopicVelocity, tfScores, velLoop, velPair,
      pairWeight, velQuot]

/-- Witness for C2 (amended): all scores zero gives velocity 0. -/
theorem C2_velocity_amended_witness :
    calculateTopicVelocity (fun _ => some 0) [.hour, .day] = 0 :=
  (C2_velocity_amended (fun _ => some 0) [.hour, .day]).2.1 (by
    intro q hq
    simp [tfScores] at hq
    exact hq)

/-- Effect of HSET on a later lookup. -/
theorem hlookup_hset (h : RHash) (f g : String) (v : RVal) :
    hlookup (hsetCmd h g v) f = if g = f then some v else hlookup h f := by
  induction h with
  | nil => simp [hsetCmd, hlookup]
  | cons p rest ih =>
    obtain ⟨a, w⟩ := p
    simp only [hsetCmd]
    by_cases hag : a = g
    · rw [if_pos hag]
      simp only [hlookup]
      by_cases hgf : g = f
      · rw [if_pos hgf, if_pos hgf]
      · rw [if_neg hgf, if_neg hgf]
        have haf : ¬ a = f := by rw [hag]; exact hgf
        conv_rhs => rw [hlookup.eq_def]
        simp only [if_neg haf]
        rw [← hlookup.eq_def]
    · rw [if_neg hag]
      simp only [hlookup, ih]
      by_cases haf : a = f
      · rw [if_pos haf]
        by_cases hgf : g = f
        · exact absurd (haf.trans hgf.symm) hag
        · rw [if_neg hgf, if_pos haf]
      · rw [if_neg haf]
        by_cases hgf : g = f
        · rw [if_pos hgf, if_pos hgf]
        · rw [if_neg hgf, if_neg hgf, if_neg haf]

/-- One call of `increment_entity_metrics` on a single field that is absent
or holds an integer: the increment succeeds, the timestamp is rewritten,
and the trace is one HINCRBY, one HSET and one EXPIRE, in that order. -/
theorem incrementEntityMetrics_single (f : String) (k : Int) (now : String)
    (t : Nat) (h : RHash) :
    (hlookup h f = none →
      incrementEntityMetrics [(f, k)] now (some t) h =
        ⟨[(f, k)], hsetCmd (hsetCmd h f (.int k)) LAST_UPDATED (.str now),
          [.incrOp f k, .setOp LAST_UPDATED, .expireOp t]⟩) ∧
    (∀ v : Int, hlookup h f = some (.int v) →
      incrementEntityMetrics [(f, k)] now (some t) h =
        ⟨[(f, v + k)],
          hsetCmd (hsetCmd h f (.int (v + k))) LAST_UPDATED (.str now),
          [.incrOp f k, .setOp LAST_UPDATED, .expireOp t]⟩) := by
  constructor
  · intro h0
    simp [incrementEntityMetrics, incrLoop, hincrbyCmd, h0]
  · intro v hv
    simp [incrementEntityMetrics, incrLoop, hincrbyCmd, hv]

/-- The field value after `n` sequential single-field increment calls. -/
theorem iterIncr_lookup (f : String) (k : Int) (nows : Nat → String)
    (t : Nat) (h0 : RHash) (hf : f ≠ LAST_UPDATED)
    (h00 : hlookup h0 f = none) :
    ∀ n : Nat, hlookup (iterIncr f k nows (some t) h0 n) f =
      if n = 0 then none else some (.int ((n : Int) * k)) := by
  intro n
  induction n with
  | zero => simpa [iterIncr] using h00
  | succ n ih =>
    unfold iterIncr
    by_cases hn : n = 0
    · subst hn
      rw [if_pos rfl] at ih
      rw [(incrementEntityMetrics_single f k (nows 0) t _).1 ih]
      simp only []
      rw [hlookup_hset, if_neg (fun hh => hf hh.symm), hlookup_hset,
        if_pos rfl, if_neg (Nat.succ_ne_zero 0)]
      norm_num
    · rw [if_neg hn] at ih
      rw [(incrementEntityMetrics_single f k (nows n) t _).2 _ ih]
      simp only []
      rw [hlookup_hset, if_neg (fun hh => hf hh.symm), hlookup_hset,
        if_pos rfl, if_neg (Nat.succ_ne_zero n)]
      have harith : ((n : Int)) * k + k = (((n + 1 : Nat) : Int)) * k := by
        push_cast
        ring
      rw [harith]

/-- Claim C8 counterexample: incrementing the field `last_updated` itself is
not reported back by the snapshot read, because every increment call
afterwards overwrites `last_updated` with the current ISO timestamp; after
one call adding 5 to `last_updated` on an empty hash the snapshot reports
the timestamp string, not the integer 5 = N * k. -/
theorem C8_last_updated_counterexample :
    getEntityMetricsField
        (incrementEntityMetrics [(LAST_UPDATED, 5)] "2024-01-01T00:00:00"
          (some 3600) []).hash LAST_UPDATED =
      .pStr "2024-01-01T00:00:00" ∧
    getEntityMetricsField
        (incrementEntityMetrics [(LAST_UPDATED, 5)] "2024-01-01T00:00:00"
          (some 3600) []).hash LAST_UPDATED ≠ .pInt 5 := by
  exact ⟨rfl, by decide⟩

/-- Claim C8 (amended): for every field other than `last_updated`, starting
absent, N sequential calls each adding the integer k leave the snapshot
value at N * k (and at `None` when N = 0, before any call); each call
performs exactly one atomic HINCRBY for the named field, one HSET of the
timestamp, and one TTL refresh after the increment, in that order. -/
theorem C8_increment_metrics_amended :
    ∀ (f : String) (k : Int) (nows : Nat → String) (t : Nat) (h0 : RHash)
      (N : Nat), f ≠ LAST_UPDATED → hlookup h0 f = none →
      (getEntityMetricsField (iterIncr f k nows (some t) h0 N) f =
        if N = 0 then .pNone else .pInt ((N : Int) * k)) ∧
      (∀ n : Nat,
        (incrementEntityMetrics [(f, k)] (nows n) (some t)
          (iterIncr f k nows (some t) h0 n)).trace =
        [.incrOp f k, .setOp LAST_UPDATED, .expireOp t]) := by
  intro f k nows t h0 N hf h00
  constructor
  · unfold getEntityMetricsField
    rw [iterIncr_lookup f k nows t h0 hf h00 N]
    by_cases hN : N = 0 <;> simp [hN, parseRVal]
  · intro n
    have hl := iterIncr_lookup f k nows t h0 hf h00 n
    by_cases hn : n = 0
    · rw [if_pos hn] at hl
      rw [(incrementEntityMetrics_single f k (nows n) t _).1 hl]
    · rw [if_neg hn] at hl
      rw [(incrementEntityMetrics_single f k (nows n) t _).2 _ hl]

/-- Witness for C8 (amended): three calls adding 2 to `posts_count` yield a
snapshot of 6, and the first call performs HINCRBY, HSET, EXPIRE. -/
theorem C8_increment_metrics_amended_witness :
    getEntityMetricsField
        (iterIncr "posts_count" 2 (fun _ => "t0") (some 3600) [] 3)
        "posts_count" = .pInt 6 ∧
    (incrementEntityMetrics [("posts_count", 2)] "t0" (some 3600)
        (iterIncr "posts_count" 2 (fun _ => "t0") (some 3600) [] 0)).trace =
      [.incrOp "posts_count" 2, .setOp LAST_UPDATED, .expireOp 3600] := by
  have h := C8_increment_metrics_amended "posts_count" 2 (fun _ => "t0")
    3600 [] 3 (by decide) rfl
  refine ⟨?_, h.2 0⟩
  have h1 := h.1
  norm_num at h1
  exact h1

/-- The collection loop of `get_entity_alerts` is the filterMap of its
one-member outcome. -/
theorem collectAlerts_eq_filterMap (minP : AlertPriority)
    (ms : List AlertMember) :
    collectAlerts minP ms = ms.filterMap (keepFn minP) := by
  induction ms with
  | nil => rfl
  | cons m rest ih =>
    cases m with
    | invalid s => simp [collectAlerts, keepFn, List.filterMap_cons, ih]
    | jsonObj a =>
      simp only [collectAlerts, keepFn, List.filterMap_cons]
      cases hp : priorityOfName (a.priority.getD "LOW") with
      | none => simpa using ih
      | some p =>
        by_cases hw : minP.weight ≤ p.weight
        · simp only [if_pos hw]
          simpa using ih
        · simp only [if_neg hw]
          simpa using ih

/-- Characterization of the one-member outcome. -/
theorem keepFn_eq_some (minP : AlertPriority) (m : AlertMember)
    (a : AlertData) :
    keepFn minP m = some a ↔
      (m = .jsonObj a ∧ ∃ p, priorityOfName (a.priority.getD "LOW") = some p ∧
        minP.weight ≤ p.weight) := by
  cases m with
  | invalid s => simp [keepFn]
  | jsonObj b =>
    simp only [keepFn]
    constructor
    · intro h
      cases hp : priorityOfName (b.priority.getD "LOW") with
      | none => rw [hp] at h; cases h
      | some p =>
        rw [hp] at h
        dsimp only [] at h
        by_cases hw : minP.weight ≤ p.weight
        · rw [if_pos hw] at h
          have hba : b = a := Option.some.inj h
          subst hba
          exact ⟨rfl, p, hp, hw⟩
        · rw [if_neg hw] at h
          cases h
    · rintro ⟨hm, p, hp, hw⟩
      have hba : b = a := by injection hm
      subst hba
      rw [hp]
      dsimp only []
      rw [if_pos hw]

/-- The kept alerts form a sublist of the fetched members. -/
theorem filterMap_keepFn_sublist (minP : AlertPriority) :
    ∀ ms : List AlertMember,
      ((ms.filterMap (keepFn minP)).map AlertMember.jsonObj).Sublist ms := by
  intro ms
  induction ms with
  | nil => simp
  | cons m rest ih =>
    cases hk : keepFn minP m with
    | none =>
      rw [List.filterMap_cons, hk]
      exact ih.cons m
    | some a =>
      have hma : m = .jsonObj a := ((keepFn_eq_some minP m a).mp hk).1
      subst hma
      rw [List.filterMap_cons, hk, List.map_cons]
      exact ih.cons₂ _

/-- Claim C10 counterexample: with limit 0 the fetch index becomes
`0 (limit - 1) = (0, -1)`, and a stop of -1 denotes the last element of the
sorted set, so the read returns every alert rather than at most the limit:
after raising one alert, a read with limit 0 returns 1 alert. -/
theorem C10_limit_zero_counterexample :
    (getEntityAlerts
        (createEntityAlert [] 0 "a1" "spike" "t0" "e1" "m1" .low) 0
        .low).length = 1 ∧
    ¬ ((getEntityAlerts
        (createEntityAlert [] 0 "a1" "spike" "t0" "e1" "m1" .low) 0
        .low).length ≤ 0) := by
  exact ⟨rfl, by decide⟩

/-- Claim C10 (amended): the pending-alerts read returns exactly the
members among those fetched by ZREVRANGE 0 (limit - 1), in fetched
(descending-score) order, that parse as valid JSON and whose priority name
(defaulting to LOW when the field is absent) is a recognized priority with
value at least the minimum; members that are invalid JSON or carry an
unrecognized priority name are skipped without error.  When limit = 0 the
stop index -1 makes the fetch return the whole set. -/
theorem C10_pending_alert_filter :
    ∀ (zs : AlertZSet) (limit : Nat) (minP : AlertPriority),
      (∀ a : AlertData,
        a ∈ getEntityAlerts zs limit minP ↔
          (AlertMember.jsonObj a ∈
              (zrevrangeCmd zs 0 ((limit : Int) - 1)).map Prod.fst ∧
            ∃ p, priorityOfName (a.priority.getD "LOW") = some p ∧
              minP.weight ≤ p.weight)) ∧
      ((getEntityAlerts zs limit minP).map AlertMember.jsonObj).Sublist
        ((zrevrangeCmd zs 0 ((limit : Int) - 1)).map Prod.fst) := by
  intro zs limit minP
  constructor
  · intro a
    unfold getEntityAlerts
    rw [collectAlerts_eq_filterMap, List.mem_filterMap]
    constructor
    · rintro ⟨m, hm, hk⟩
      obtain ⟨hma, hp⟩ := (keepFn_eq_some minP m a).mp hk
      subst hma
      exact ⟨hm, hp⟩
    · rintro ⟨hm, hp⟩
      exact ⟨.jsonObj a, hm, (keepFn_eq_some minP _ a).mpr ⟨rfl, hp⟩⟩
  · unfold getEntityAlerts
    rw [collectAlerts_eq_filterMap]
    exact filterMap_keepFn_sublist minP _

/-- Claim C4: raising a LOW alert at time T and a CRITICAL alert at
T - 3600 into the alert set of the same entity gives the CRITICAL alert the
score T + 196400 and the LOW alert the score T + 10000, so the
descending-score pending read returns the CRITICAL alert first, for every
time T. -/
theorem C4_alert_priority_dominance :
    ∀ T : ℚ,
      getEntityAlerts
        (createEntityAlert
          (createEntityAlert [] T "alertL" "threshold" "t1" "e1" "mL" .low)
          (T - 3600) "alertC" "spike" "t2" "e1" "mC" .critical)
        2 .low =
      [⟨"alertC", "spike", some "CRITICAL", "t2", "e1", "mC"⟩,
        ⟨"alertL", "threshold", some "LOW", "t1", "e1", "mL"⟩] := by
  intro T
  have hL : alertScore T .low = T + 10000 := by
    simp only [alertScore, AlertPriority.weight]
    norm_num
  have hC : alertScore (T - 3600) .critical = T + 196400 := by
    simp only [alertScore, AlertPriority.weight]
    push_cast
    ring
  unfold createEntityAlert
  rw [hL, hC]
  simp only [zaddCmd, AlertPriority.pname]
  rw [if_neg (by decide)]
  have hsort : zrevSorted
      [(AlertMember.jsonObj ⟨"alertL", "threshold", some "LOW", "t1", "e1",
          "mL"⟩, T + 10000),
        (AlertMember.jsonObj ⟨"alertC", "spike", some "CRITICAL", "t2",
          "e1", "mC"⟩, T + 196400)] =
      [(AlertMember.jsonObj ⟨"alertC", "spike", some "CRITICAL", "t2",
          "e1", "mC"⟩, T + 196400),
        (AlertMember.jsonObj ⟨"alertL", "threshold", some "LOW", "t1", "e1",
          "mL"⟩, T + 10000)] := by
    unfold zrevSorted
    simp only [List.foldr, revInsert]
    rw [if_neg (by linarith : ¬ (T + 196400 < T + 10000))]
  unfold getEntityAlerts
  rw [show ((2 : Nat) : Int) - 1 = 1 by norm_num]
  unfold zrevrangeCmd
  rw [hsort]
  norm_num [List.take, List.drop]
  decide

/-- Claim C9 counterexample: at T = 1000000, the LOW alert raised at T has
score 1010000 while the CRITICAL alert raised 86400 s earlier has score
1113600, so the lowest-priority alert raised now does not have a strictly
greater score than the highest-priority alert raised a full day earlier:
the weight spread (20 - 1) * 10000 = 190000 s exceeds one day, so priority
still dominates recency across a one-day gap. -/
theorem C9_epoch_counterexample :
    ¬ (alertScore (1000000 - 86400) .critical <
        alertScore 1000000 .low) := by
  norm_num [alertScore, AlertPriority.weight]

/-- Claim C9 (amended): a CRITICAL alert raised a full day (86400 s) before
T still strictly outranks a LOW alert raised at T; the LOW alert raised at
T outranks the highest-priority alert only when the latter was raised more
than (20 - 1) * 10000 = 190000 s before T. -/
theorem C9_priority_dominance_window :
    ∀ T : ℚ,
      alertScore T .low < alertScore (T - 86400) .critical ∧
      (∀ d : ℚ, 190000 < d →
        alertScore (T - d) .critical < alertScore T .low) := by
  intro T
  constructor
  · simp only [alertScore, AlertPriority.weight]
    push_cast
    linarith
  · intro d hd
    simp only [alertScore, AlertPriority.weight]
    push_cast
    linarith

/-- Witness for C9 (amended), at T = 0 and d = 190001. -/
theorem C9_priority_dominance_window_witness :
    alertScore 0 .low < alertScore (0 - 86400) .critical ∧
    alertScore (0 - 190001) .critical < alertScore 0 .low :=
  ⟨(C9_priority_dominance_window 0).1,
    (C9_priority_dominance_window 0).2 190001 (by norm_num)⟩

/-- Claim C6, code behaviour at the failing input: for an item type outside
topics/hashtags/entities, the key dispatch raises
`ValueError("Unknown trending item type: bogus")` inside the try block, but
the blanket `except Exception` of each trending method swallows it, so
`update_trending_item` returns False, `get_trending_items` returns the
empty list and `get_trending_item_rank` returns None instead of the error
propagating to the caller. -/
theorem C6_unknown_item_type_swallowed :
    trendingKey "bogus" .hour =
      .error (.valueError "Unknown trending item type: bogus") ∧
    updateTrendingItem [] "bogus" "x" 1 .hour = (false, []) ∧
    getTrendingItems [] "bogus" .hour 10 = [] ∧
    getTrendingItemRank [] "bogus" "x" .hour = none :=
  ⟨rfl, rfl, rfl, rfl⟩

/-- Witness for C3: a push at length 1200 trims to exactly 1000 and a push
into an empty stream leaves the single pushed record. -/
theorem C3_stream_trim_bound_witness :
    (addToList "r" (List.replicate 1200 "a")).length = MAX_STREAM_LENGTH ∧
    addToList "r" [] = ["r"] :=
  ⟨C3_stream_trim_bound.2.1 "r" (List.replicate 1200 "a")
      (by norm_num [MAX_STREAM_LENGTH]),
    C3_stream_trim_bound.2.2.1 "r" [] (by decide)⟩
